import Mathlib

/-!
Shallow embedding of the broker connection/channel-pool manager of
K8s-Channelogger (`code/rabbit/rabbit.go`, constants from
`code/constants`).  Channels are identified by their pointer identity,
modelled as `Option Nat` (`none` is the Go `nil` pointer).  The Go
buffered channel `r.pool` is modelled as a FIFO list together with its
capacity; a non-blocking send succeeds exactly when the buffer length is
below the capacity.  Failures of the broker library calls
(`conn.Channel()`, `ch.QueueDeclare`, `ch.Publish`) are driven by
explicit oracles, since the broker's behaviour is an input to the code
under verification.  Durations are in milliseconds.
-/

namespace Channelog

/-- A Go `error` value as the rabbit code observes it: either the
sentinel `amqp.ErrClosed` or some error with a message text
(`err.Error()`).  Only these two observations are made by the code
(`rabbit.go` line 89). -/
structure GoError where
  isAmqpErrClosed : Bool
  msg : String
deriving Repr, DecidableEq

/-- Constant `constants.RabbitMQConnectionError` ("connection is not open"). -/
def RabbitMQConnectionError : String := "connection is not open"

/-- Constant `constants.BackoffMax` (30 s), in milliseconds. -/
def BackoffMax : Nat := 30000

/-- Constant `rabbit.maxPublishAttempts` (2). -/
def maxPublishAttempts : Nat := 2

/-- Does the character list start with the given needle? (helper for
modelling Go `strings.Contains`). -/
def charsStartWith : List Char → List Char → Bool
  | [], _ => true
  | _ :: _, [] => false
  | n :: ns, h :: hs => n == h && charsStartWith ns hs

/-- Does the haystack contain the needle as a contiguous subsequence?
(helper for modelling Go `strings.Contains`). -/
def charsContain (needle : List Char) : List Char → Bool
  | [] => charsStartWith needle []
  | h :: hs => charsStartWith needle (h :: hs) || charsContain needle hs

/-- Go `strings.Contains hay needle`. -/
def strContains (hay needle : String) : Bool :=
  charsContain needle.data hay.data

/-- The "connection not actually open" signature tested by
`handleConnectionError` (`rabbit.go` line 89):
`err == amqp.ErrClosed || strings.Contains(err.Error(), constants.RabbitMQConnectionError)`. -/
def errMatchesConnClosed (e : GoError) : Bool :=
  e.isAmqpErrClosed || strContains e.msg RabbitMQConnectionError

/-- A Go `*amqp.Channel` value: `none` is the nil pointer, `some i` a
channel with pointer identity `i`. -/
abbrev Chan := Option Nat

/-- The `r.conn` field: nil, an open connection, or a closed connection. -/
inductive ConnState
  | noConn
  | openConn
  | closedConn
deriving Repr, DecidableEq

/-- State of a `RabbitManager`.  `pool` is the buffered channel `r.pool`
(front of the list = next value received), `capacity` its buffer size
(`cfg.MaxChannelPool`), `bad` the key set of `r.badChannels`, `conn` the
current connection, `doneClosed` / `poolClosed` whether `close(r.done)` /
`close(r.pool)` have run.  `nextId` is a fresh-identity counter for newly
opened channels.  Two ghost fields observe history without influencing
any behaviour: `closed` records every channel on which `ch.Close()` was
called, and `everMarked` records every channel whose close notification
`handleChannelClose` ever recorded. -/
structure RabbitState where
  capacity : Nat
  pool : List Chan
  bad : List Chan
  conn : ConnState
  nextId : Nat
  doneClosed : Bool
  poolClosed : Bool
  closed : List Chan
  everMarked : List Chan
deriving Repr, DecidableEq

/-- `NewRabbitManager` (`rabbit.go` lines 54-61): empty pool of the
configured capacity, empty bad set, nil connection, fresh `done`. -/
def NewRabbitManager (maxPool : Nat) : RabbitState :=
  { capacity := maxPool
    pool := []
    bad := []
    conn := .noConn
    nextId := 0
    doneClosed := false
    poolClosed := false
    closed := []
    everMarked := [] }

/-- `ch.Close()`: records the closure in the ghost `closed` list (the
amqp close itself has no further effect visible to this code). -/
def closeChan (s : RabbitState) (ch : Chan) : RabbitState :=
  { s with closed := s.closed ++ [ch] }

/-- `handleConnectionError` (`rabbit.go` lines 88-97): when the error
matches the dead-connection signature, close `r.conn` if non-nil
(`conn.Close()` is idempotent in the amqp client: closing an
already-closed connection just returns `ErrClosed`); otherwise do
nothing. -/
def handleConnectionError (s : RabbitState) (e : GoError) : RabbitState :=
  if errMatchesConnClosed e then
    match s.conn with
    | .noConn => s
    | .openConn => { s with conn := .closedConn }
    | .closedConn => s
  else s

/-- `handleChannelClose` (`rabbit.go` lines 179-186), at the moment the
close notification fires: insert the channel into `badChannels` (map
insert; duplicates impossible) and into the ghost `everMarked` history. -/
def handleChannelClose (s : RabbitState) (ch : Chan) : RabbitState :=
  { s with
    bad := if ch ∈ s.bad then s.bad else s.bad ++ [ch]
    everMarked := if ch ∈ s.everMarked then s.everMarked else s.everMarked ++ [ch] }

/-- Outcomes of the broker-library calls made when opening a fresh
channel inside `Acquire` / `warmUpChannels`: `openErr` is the error of
`conn.Channel()` (`none` = success), `declErr` the error of
`ch.QueueDeclare` (`none` = success). -/
structure AcqOracle where
  openErr : Option GoError
  declErr : Option GoError
deriving Repr, DecidableEq

/-- Result of `Acquire`: `ok ch` is `return ch, nil`; `fail e` is
`return nil, err`; `blocked` is the branch that sleeps and retries
because no live connection exists — in this sequential model the call
does not return while the state stays as it is. -/
inductive AcqResult
  | ok (ch : Chan)
  | fail (e : GoError)
  | blocked
deriving Repr, DecidableEq

/-- The `default` branch of `Acquire`'s select (`rabbit.go` lines
119-151), taken when the pool buffer is empty: open a fresh channel on
the current connection, declare the queue on it, register its
close-notification watcher, and return it; on any failure close/discard
as the code does.  If the pool has been closed by `Stop`, the Go receive
`ch := <-r.pool` on the closed empty channel yields the zero value `nil`
immediately, which passes the bad-set check and is returned with a nil
error. -/
def acquireEmptyPool (s : RabbitState) (o : AcqOracle) : AcqResult × RabbitState :=
  if s.poolClosed then
    (.ok none, s)
  else
    match s.conn with
    | .noConn => (.blocked, s)
    | .closedConn => (.blocked, s)
    | .openConn =>
      match o.openErr with
      | some e => (.fail e, handleConnectionError s e)
      | none =>
        let ch : Chan := some s.nextId
        let s1 : RabbitState := { s with nextId := s.nextId + 1 }
        match o.declErr with
        | some e => (.fail e, closeChan s1 ch)
        | none => (.ok ch, s1)

/-- The receive arm of `Acquire`'s loop (`rabbit.go` lines 105-153),
structurally recursive on the pool buffer contents: pop the front
channel; if it is in `badChannels`, delete it from the set, close it and
continue with the next pooled channel; otherwise return it.  On an empty
buffer fall through to `acquireEmptyPool`. -/
def acquireLoop (o : AcqOracle) : RabbitState → List Chan → AcqResult × RabbitState
  | s, [] => acquireEmptyPool s o
  | s, ch :: rest =>
    if ch ∈ s.bad then
      acquireLoop o (closeChan { s with pool := rest, bad := s.bad.erase ch } ch) rest
    else
      (.ok ch, { s with pool := rest })

/-- `Acquire` (`rabbit.go` lines 102-154). -/
def Acquire (s : RabbitState) (o : AcqOracle) : AcqResult × RabbitState :=
  acquireLoop o s s.pool

/-- `Release` (`rabbit.go` lines 157-176): a bad channel is deleted from
the set and closed; otherwise a non-blocking push into the pool, closing
the channel when the buffer is full.  If the pool has been closed by
`Stop`, the send on the closed Go channel panics; the panic is absorbed
by the deferred `PanicCatcher`, so the state is left unchanged. -/
def Release (s : RabbitState) (ch : Chan) : RabbitState :=
  if ch ∈ s.bad then
    closeChan { s with bad := s.bad.erase ch } ch
  else if s.poolClosed then
    s
  else if s.pool.length < s.capacity then
    { s with pool := s.pool ++ [ch] }
  else
    closeChan s ch

/-- One iteration of `warmUpChannels` (`rabbit.go` lines 263-287): open
a channel (on error just continue), declare the queue (on error close
the channel and continue), then push non-blockingly, closing the channel
if the pool is full. -/
def warmUpStep (s : RabbitState) (o : AcqOracle) : RabbitState :=
  match o.openErr with
  | some _ => s
  | none =>
    let ch : Chan := some s.nextId
    let s1 : RabbitState := { s with nextId := s.nextId + 1 }
    match o.declErr with
    | some _ => closeChan s1 ch
    | none =>
      if s1.poolClosed then s1
      else if s1.pool.length < s1.capacity then { s1 with pool := s1.pool ++ [ch] }
      else closeChan s1 ch

/-- `warmUpChannels` (`rabbit.go` lines 262-288): `MaxChannelPool`
iterations of `warmUpStep`, the `i`-th driven by oracle `os i`. -/
def warmUpChannels (s : RabbitState) (os : Nat → AcqOracle) : RabbitState :=
  (List.range s.capacity).foldl (fun st i => warmUpStep st (os i)) s

/-- Whether a call panicked. -/
inductive StopOutcome
  | ok
  | panicked
deriving Repr, DecidableEq

/-- `Stop` (`rabbit.go` lines 69-82): `close(r.done)` panics if `done`
is already closed (Go: closing a closed channel panics, and `Stop` has
no `PanicCatcher`); otherwise close the connection if non-nil, close the
pool and drain it, closing every pooled channel. -/
def Stop (s : RabbitState) : StopOutcome × RabbitState :=
  if s.doneClosed then
    (.panicked, s)
  else
    let s1 : RabbitState := { s with doneClosed := true }
    let s2 : RabbitState :=
      match s1.conn with
      | .noConn => s1
      | .openConn => { s1 with conn := .closedConn }
      | .closedConn => s1
    (.ok, { s2 with pool := [], poolClosed := true, closed := s2.closed ++ s2.pool })

/-- The pool-swap part of a successful dial in `reconnectLoop`
(`rabbit.go` lines 224-247): install the new open connection and a fresh
empty pool, close the old connection, and drain/close every channel of
the old pool. -/
def reconnectSwap (s : RabbitState) : RabbitState :=
  { s with
    conn := .openConn
    pool := []
    poolClosed := false
    closed := s.closed ++ s.pool }

/-- Outcome of a `PublishWithRetry` call.  `errNoChannel e` is
`"no channel available: %w"` (initial acquire failed, before the defer
was registered); `noChannelOnRetry e` is
`"no channel available on retry: %w"`; `failedAfter n e` is
`"failed to publish after %d attempts: %w"` with `n` the attempt count
embedded in the message; `blockedAcquire` marks a call that never
returns because `Acquire` loops waiting for a connection;
`unhandledExit` is the unreachable `"unhandled publish retry loop
exit"` (line 333). -/
inductive PubOutcome
  | success
  | errNoChannel (e : GoError)
  | noChannelOnRetry (e : GoError)
  | failedAfter (n : Nat) (e : GoError)
  | blockedAcquire
  | unhandledExit
deriving Repr, DecidableEq

/-- Observable trace of one `PublishWithRetry` call: its outcome, the
number of `ch.Publish` calls made, the channel used by each publish
attempt in order, every argument passed to `r.Release` in execution
order (the deferred release, when registered, is last), and the final
manager state. -/
structure PubRun where
  outcome : PubOutcome
  attempts : Nat
  chans : List Chan
  releases : List Chan
  final : RabbitState
deriving Repr, DecidableEq

/-- Interleaving point for the concurrent close-notification watcher:
`handleChannelClose` runs in its own goroutine, and when a publish fails
because the broker closed the channel the notification typically fires
right then.  `markPoint` applies the watcher event (if any) that the
schedule places immediately after a failed publish. -/
def markPoint (s : RabbitState) : Option Chan → RabbitState
  | none => s
  | some c => handleChannelClose s c

/-- The retry for-loop of `PublishWithRetry` (`rabbit.go` lines
302-330), starting at attempt number `attempt` with channel `ch` in
hand.  `pubErr n` is the error of the `n`-th `ch.Publish` call (`none` =
success), `retryAcq n` the oracle for the re-acquire after failed
attempt `n`, and `markAfter n` the watcher event scheduled right after
failed attempt `n`.  `fuel` counts the loop iterations still allowed by
the loop condition, `maxPublishAttempts + 1 - attempt`; the fuel-0 case
is the fall-through return at line 333. -/
def publishLoop (pubErr : Nat → Option GoError) (retryAcq : Nat → AcqOracle)
    (markAfter : Nat → Option Chan) :
    Nat → RabbitState → Chan → Nat → PubRun
  | 0, s, _, _ => ⟨.unhandledExit, 0, [], [], s⟩
  | fuel + 1, s, ch, attempt =>
    match pubErr attempt with
    | none => ⟨.success, 1, [ch], [], s⟩
    | some e =>
      let s0 := markPoint s (markAfter attempt)
      if attempt = maxPublishAttempts then
        ⟨.failedAfter attempt e, 1, [ch], [], s0⟩
      else
        let s1 := Release s0 ch
        match acquireLoop (retryAcq attempt) s1 s1.pool with
        | (.ok ch2, s2) =>
          let rest := publishLoop pubErr retryAcq markAfter fuel s2 ch2 (attempt + 1)
          ⟨rest.outcome, rest.attempts + 1, ch :: rest.chans, ch :: rest.releases, rest.final⟩
        | (.fail e2, s2) => ⟨.noChannelOnRetry e2, 1, [ch], [ch], s2⟩
        | (.blocked, s2) => ⟨.blockedAcquire, 1, [ch], [ch], s2⟩

/-- `PublishWithRetry` (`rabbit.go` lines 292-334).  Go evaluates the
arguments of a deferred call when the `defer` statement executes, so
`defer r.Release(ch)` at line 299 captures the channel returned by the
initial `Acquire`; the deferred call releases that same first channel on
every exit path no matter what is later assigned to the variable `ch`. -/
def PublishWithRetry (s : RabbitState) (initAcq : AcqOracle)
    (pubErr : Nat → Option GoError) (retryAcq : Nat → AcqOracle)
    (markAfter : Nat → Option Chan) : PubRun :=
  match Acquire s initAcq with
  | (.blocked, s1) => ⟨.blockedAcquire, 0, [], [], s1⟩
  | (.fail e, s1) => ⟨.errNoChannel e, 0, [], [], s1⟩
  | (.ok ch, s1) =>
    let run := publishLoop pubErr retryAcq markAfter maxPublishAttempts s1 ch 1
    ⟨run.outcome, run.attempts, run.chans, run.releases ++ [ch], Release run.final ch⟩

/-- `nextBackoff` models lines 214-216 of `reconnectLoop`: the backoff
doubles only while it is still below `BackoffMax`. -/
def nextBackoff (b : Nat) : Nat :=
  if b < BackoffMax then b * 2 else b

/-- The base delays (ms, jitter excluded) slept by `reconnectLoop`
(`rabbit.go` lines 189-258) over a sequence of dial outcomes (`true` =
dial succeeded, `false` = dial failed), starting with current backoff
`b`: a failed dial sleeps the current backoff and then doubles it below
the cap; a successful dial sleeps nothing and resets the backoff to the
1-second floor. -/
def reconnectBases : Nat → List Bool → List Nat
  | _, [] => []
  | _, true :: rest => reconnectBases 1000 rest
  | b, false :: rest => b :: reconnectBases (nextBackoff b) rest

/-- Base delays of a fresh `reconnectLoop` run (backoff initialised to
`time.Second` at line 192). -/
def reconnectLoopBases (outs : List Bool) : List Nat :=
  reconnectBases 1000 outs

/-- The jitter (ms) derived from the raw draw `j = rng.Int63n(1000)`
(so `j < 1000`): `(j - 500) * time.Millisecond` at line 212. -/
def jitterOf (j : Nat) : Int :=
  (j : Int) - 500

/-- The actual sleep duration (ms) at line 213: `backoff + jitter`. -/
def sleepDuration (base : Nat) (j : Nat) : Int :=
  (base : Int) + jitterOf j

/-- The backoff values reachable from the 1-second floor under
`nextBackoff`. -/
def backoffReachable : List Nat := [1000, 2000, 4000, 8000, 16000, 32000]

/-- The operations that touch a `RabbitManager`'s shared state, one
sequential interleaving step each: an `Acquire` call, a `Release` call,
a close-notification watcher firing (`handleChannelClose`), one warm-up
iteration, a `Stop` call, and the connection/pool swap of a successful
reconnect. -/
inductive Op
  | acquire (o : AcqOracle)
  | release (ch : Chan)
  | chanClose (ch : Chan)
  | warm (o : AcqOracle)
  | stop
  | reconnect
deriving Repr, DecidableEq

/-- State effect of one operation. -/
def step (s : RabbitState) : Op → RabbitState
  | .acquire o => (Acquire s o).2
  | .release ch => Release s ch
  | .chanClose ch => handleChannelClose s ch
  | .warm o => warmUpStep s o
  | .stop => (Stop s).2
  | .reconnect => reconnectSwap s

/-- Run a sequence of operations. -/
def runOps (s : RabbitState) : List Op → RabbitState
  | [] => s
  | op :: rest => runOps (step s op) rest

/-- The identity of `ch`, when it is a real (non-nil) channel, was
allocated before counter value `n`. -/
def chanIdLt : Chan → Nat → Prop
  | none, _ => True
  | some i, n => i < n

instance (ch : Chan) (n : Nat) : Decidable (chanIdLt ch n) :=
  match ch with
  | none => isTrue trivial
  | some i => inferInstanceAs (Decidable (i < n))

/-- Structural well-formedness of a manager state: the pool holds no
duplicate channel values; a pooled channel whose close notification has
ever been recorded still has its `badChannels` entry (the entry is
consumed exactly when the channel is taken out of service); every bad
channel got there via a recorded notification; the watcher never marks
the nil channel; and every pooled or marked identity was allocated by
the fresh-channel counter. -/
def Inv (s : RabbitState) : Prop :=
  s.pool.Nodup ∧
  (∀ ch ∈ s.pool, ch ∈ s.everMarked → ch ∈ s.bad) ∧
  (∀ ch ∈ s.bad, ch ∈ s.everMarked) ∧
  none ∉ s.everMarked ∧
  (∀ ch ∈ s.pool, chanIdLt ch s.nextId) ∧
  (∀ ch ∈ s.everMarked, chanIdLt ch s.nextId)

instance (s : RabbitState) : Decidable (Inv s) := by
  unfold Inv
  infer_instance

/-- A `Release` call is well-behaved when its caller holds the lease on
the channel exclusively: the channel is not simultaneously sitting in
the pool, its bad-set entry (if its notification fired) has not already
been consumed by an earlier touch, and its identity is a real allocated
one.  `PublishWithRetry`'s deferred second release of an
already-recycled channel violates this. -/
def ReleaseOK (s : RabbitState) (ch : Chan) : Prop :=
  ch ∉ s.pool ∧ (ch ∈ s.everMarked → ch ∈ s.bad) ∧ chanIdLt ch s.nextId

/-- Side condition making an operation well-behaved: releases obey the
exclusive-lease discipline and watchers only mark channels that were
actually opened (real, already-allocated identities). -/
def stepOK (s : RabbitState) : Op → Prop
  | .release ch => ReleaseOK s ch
  | .chanClose ch => ch ≠ none ∧ chanIdLt ch s.nextId
  | _ => True

/-! ### Helper lemmas -/

theorem chanIdLt_mono {ch : Chan} {n m : Nat} (h : chanIdLt ch n) (hnm : n ≤ m) :
    chanIdLt ch m := by
  cases ch with
  | none => trivial
  | some i => exact lt_of_lt_of_le h hnm

theorem le_nextBackoff (b : Nat) : b ≤ nextBackoff b := by
  unfold nextBackoff
  split <;> omega

theorem nextBackoff_mem_reachable {b : Nat} (h : b ∈ backoffReachable) :
    nextBackoff b ∈ backoffReachable := by
  fin_cases h <;> decide

theorem reachable_le {b : Nat} (h : b ∈ backoffReachable) : b ≤ 32000 := by
  fin_cases h <;> decide

theorem reconnectBases_mem_reachable :
    ∀ (outs : List Bool) (b : Nat), b ∈ backoffReachable →
      ∀ d ∈ reconnectBases b outs, d ∈ backoffReachable := by
  intro outs
  induction outs with
  | nil => intro b _ d hd; simp [reconnectBases] at hd
  | cons o rest ih =>
    intro b hb d hd
    cases o with
    | true =>
      exact ih 1000 (by decide) d (by simpa [reconnectBases] using hd)
    | false =>
      rw [reconnectBases] at hd
      rcases List.mem_cons.mp hd with h | h
      · exact h ▸ hb
      · exact ih (nextBackoff b) (nextBackoff_mem_reachable hb) d h

theorem handleConnectionError_pool (s : RabbitState) (e : GoError) :
    (handleConnectionError s e).pool = s.pool := by
  unfold handleConnectionError
  split
  · cases s.conn <;> rfl
  · rfl

theorem handleConnectionError_bad (s : RabbitState) (e : GoError) :
    (handleConnectionError s e).bad = s.bad := by
  unfold handleConnectionError
  split
  · cases s.conn <;> rfl
  · rfl

theorem handleConnectionError_everMarked (s : RabbitState) (e : GoError) :
    (handleConnectionError s e).everMarked = s.everMarked := by
  unfold handleConnectionError
  split
  · cases s.conn <;> rfl
  · rfl

theorem handleConnectionError_nextId (s : RabbitState) (e : GoError) :
    (handleConnectionError s e).nextId = s.nextId := by
  unfold handleConnectionError
  split
  · cases s.conn <;> rfl
  · rfl

theorem handleConnectionError_capacity (s : RabbitState) (e : GoError) :
    (handleConnectionError s e).capacity = s.capacity := by
  unfold handleConnectionError
  split
  · cases s.conn <;> rfl
  · rfl

theorem handleConnectionError_poolClosed (s : RabbitState) (e : GoError) :
    (handleConnectionError s e).poolClosed = s.poolClosed := by
  unfold handleConnectionError
  split
  · cases s.conn <;> rfl
  · rfl

theorem publishLoop_succ (p : Nat → Option GoError) (r : Nat → AcqOracle)
    (m : Nat → Option Chan) (fuel : Nat) (s : RabbitState) (ch : Chan) (a : Nat) :
    publishLoop p r m (fuel + 1) s ch a =
      match p a with
      | none => ⟨.success, 1, [ch], [], s⟩
      | some e =>
        if a = maxPublishAttempts then
          ⟨.failedAfter a e, 1, [ch], [], markPoint s (m a)⟩
        else
          match acquireLoop (r a) (Release (markPoint s (m a)) ch)
              (Release (markPoint s (m a)) ch).pool with
          | (.ok ch2, s2) =>
            ⟨(publishLoop p r m fuel s2 ch2 (a + 1)).outcome,
             (publishLoop p r m fuel s2 ch2 (a + 1)).attempts + 1,
             ch :: (publishLoop p r m fuel s2 ch2 (a + 1)).chans,
             ch :: (publishLoop p r m fuel s2 ch2 (a + 1)).releases,
             (publishLoop p r m fuel s2 ch2 (a + 1)).final⟩
          | (.fail e2, s2) => ⟨.noChannelOnRetry e2, 1, [ch], [ch], s2⟩
          | (.blocked, s2) => ⟨.blockedAcquire, 1, [ch], [ch], s2⟩ := by
  rfl

theorem publishLoop_attempts_le (p : Nat → Option GoError) (r : Nat → AcqOracle)
    (m : Nat → Option Chan) :
    ∀ (fuel : Nat) (s : RabbitState) (ch : Chan) (a : Nat),
      (publishLoop p r m fuel s ch a).attempts ≤ fuel := by
  intro fuel
  induction fuel with
  | zero =>
    intro s ch a
    simp [publishLoop]
  | succ k ih =>
    intro s ch a
    rw [publishLoop_succ]
    cases hp : p a with
    | none => simp
    | some e =>
      simp only
      split
      · simp
      · split
        · simp only
          exact Nat.succ_le_succ (ih _ _ _)
        · simp
        · simp

theorem acquireEmptyPool_pool (s : RabbitState) (o : AcqOracle) :
    (acquireEmptyPool s o).2.pool = s.pool := by
  unfold acquireEmptyPool
  split
  · rfl
  · split
    · rfl
    · rfl
    · split
      · exact handleConnectionError_pool s _
      · split
        · rfl
        · rfl

theorem acquireEmptyPool_capacity (s : RabbitState) (o : AcqOracle) :
    (acquireEmptyPool s o).2.capacity = s.capacity := by
  unfold acquireEmptyPool
  split
  · rfl
  · split
    · rfl
    · rfl
    · split
      · exact handleConnectionError_capacity s _
      · split
        · rfl
        · rfl

theorem acquireLoop_pool_le (o : AcqOracle) :
    ∀ (l : List Chan) (s : RabbitState), s.pool = l →
      (acquireLoop o s l).2.pool.length ≤ l.length := by
  intro l
  induction l with
  | nil =>
    intro s h
    simp only [acquireLoop, acquireEmptyPool_pool, h, List.length_nil, le_refl]
  | cons ch rest ih =>
    intro s h
    simp only [acquireLoop]
    split
    · exact le_trans (ih _ rfl) (by simp)
    · simp

theorem acquireLoop_capacity (o : AcqOracle) :
    ∀ (l : List Chan) (s : RabbitState),
      (acquireLoop o s l).2.capacity = s.capacity := by
  intro l
  induction l with
  | nil =>
    intro s
    simp only [acquireLoop, acquireEmptyPool_capacity]
  | cons ch rest ih =>
    intro s
    simp only [acquireLoop]
    split
    · exact (ih _).trans rfl
    · rfl

theorem step_capacity (s : RabbitState) (op : Op) : (step s op).capacity = s.capacity := by
  cases op with
  | acquire o => exact acquireLoop_capacity o s.pool s
  | release ch =>
    simp only [step]
    unfold Release
    split
    · rfl
    · split
      · rfl
      · split
        · rfl
        · rfl
  | chanClose ch => rfl
  | warm o =>
    simp only [step]
    unfold warmUpStep
    split
    · rfl
    · split
      · rfl
      · dsimp only
        split
        · rfl
        · split
          · rfl
          · rfl
  | stop =>
    simp only [step]
    unfold Stop
    split
    · rfl
    · cases s.conn <;> rfl
  | reconnect => rfl

theorem step_pool_le (s : RabbitState) (op : Op) (h : s.pool.length ≤ s.capacity) :
    (step s op).pool.length ≤ (step s op).capacity := by
  rw [step_capacity]
  cases op with
  | acquire o => exact le_trans (acquireLoop_pool_le o s.pool s rfl) h
  | release ch =>
    simp only [step]
    unfold Release
    split
    · exact h
    · split
      · exact h
      · split
        · simpa using ‹s.pool.length < s.capacity›
        · exact h
  | chanClose ch => exact h
  | warm o =>
    simp only [step]
    unfold warmUpStep
    split
    · exact h
    · split
      · exact h
      · dsimp only
        split
        · exact h
        · split
          · simpa using ‹_›
          · exact h
  | stop =>
    simp only [step]
    unfold Stop
    split
    · exact h
    · cases s.conn <;> simp
  | reconnect => simp [step, reconnectSwap]

/-! ### Claim C3: pool never exceeds capacity -/

/-- C3: over any sequence of manager operations (acquires, releases,
watcher events, warm-up iterations, stop, reconnect pool swaps) the
number of channels held in the pool never exceeds the configured
capacity `MaxChannelPool` (which no operation changes); moreover, when
the pool is at capacity, `Release` of a non-bad channel and a warm-up
iteration both leave the pool untouched and close the channel instead of
inserting it. -/
theorem pool_capacity_invariant (s : RabbitState) (ops : List Op)
    (h : s.pool.length ≤ s.capacity) :
    ((runOps s ops).pool.length ≤ s.capacity ∧ (runOps s ops).capacity = s.capacity) ∧
    (∀ ch : Chan, s.pool.length = s.capacity → ch ∉ s.bad → s.poolClosed = false →
      (Release s ch).pool = s.pool ∧ ch ∈ (Release s ch).closed) ∧
    (∀ o : AcqOracle, s.pool.length = s.capacity → o.openErr = none → o.declErr = none →
      s.poolClosed = false →
      (warmUpStep s o).pool = s.pool ∧ some s.nextId ∈ (warmUpStep s o).closed) := by
  refine ⟨?_, ?_, ?_⟩
  · induction ops generalizing s with
    | nil => exact ⟨h, rfl⟩
    | cons op rest ih =>
      have hstep := step_pool_le s op h
      have hcap := step_capacity s op
      have hrec := ih (step s op) hstep
      exact ⟨by simpa [runOps] using hrec.1.trans_eq hcap,
             by simpa [runOps] using hrec.2.trans hcap⟩
  · intro ch hfull hbad hpc
    unfold Release
    rw [if_neg hbad, if_neg (by simp [hpc]), if_neg (by omega)]
    exact ⟨rfl, by simp [closeChan]⟩
  · intro o hfull hopen hdecl hpc
    unfold warmUpStep
    rw [hopen, hdecl]
    dsimp only
    rw [if_neg (by simp [hpc]), if_neg (by simp; omega)]
    exact ⟨rfl, by simp [closeChan]⟩

/-- Witness for C3: two releases into a capacity-1 pool keep the pool at
one channel, and an at-capacity release closes the channel instead. -/
theorem pool_capacity_invariant_witness :
    (runOps (NewRabbitManager 1) [Op.release (some 0), Op.release (some 1)]).pool.length ≤
      (NewRabbitManager 1).capacity ∧
    ((Release { NewRabbitManager 1 with pool := [some 3], nextId := 4 } (some 4)).pool =
        ({ NewRabbitManager 1 with pool := [some 3], nextId := 4 } : RabbitState).pool ∧
      some 4 ∈ (Release { NewRabbitManager 1 with pool := [some 3], nextId := 4 } (some 4)).closed) :=
  ⟨(pool_capacity_invariant (NewRabbitManager 1) [Op.release (some 0), Op.release (some 1)]
      (by decide)).1.1,
   (pool_capacity_invariant { NewRabbitManager 1 with pool := [some 3], nextId := 4 } []
      (by decide)).2.1 (some 4) (by decide) (by decide) (by decide)⟩

theorem Inv_handleConnectionError (s : RabbitState) (e : GoError) (h : Inv s) :
    Inv (handleConnectionError s e) := by
  unfold Inv at h ⊢
  rw [handleConnectionError_pool, handleConnectionError_bad, handleConnectionError_everMarked,
    handleConnectionError_nextId]
  exact h

theorem acquireLoop_inv (o : AcqOracle) :
    ∀ (l : List Chan) (s : RabbitState), s.pool = l → Inv s →
      Inv (acquireLoop o s l).2 ∧
      ∀ ch : Chan, (acquireLoop o s l).1 = .ok ch →
        ch ∉ s.everMarked ∧ ch ∉ (acquireLoop o s l).2.bad := by
  intro l
  induction l with
  | nil =>
    intro s hp hInv
    obtain ⟨cap, pool, bad, conn, nid, dc, pc, cl, em⟩ := s
    simp only at hp
    subst hp
    obtain ⟨h1, h2, h3, h4, h5, h6⟩ := hInv
    obtain ⟨oe, od⟩ := o
    simp only [acquireLoop]
    unfold acquireEmptyPool
    cases pc with
    | true =>
      refine ⟨⟨h1, h2, h3, h4, h5, h6⟩, ?_⟩
      intro ch hch
      injection hch with h
      subst h
      exact ⟨h4, fun hb => h4 (h3 _ hb)⟩
    | false =>
      cases conn with
      | noConn =>
        refine ⟨⟨h1, h2, h3, h4, h5, h6⟩, ?_⟩
        intro ch hch
        exact absurd hch (by simp)
      | closedConn =>
        refine ⟨⟨h1, h2, h3, h4, h5, h6⟩, ?_⟩
        intro ch hch
        exact absurd hch (by simp)
      | openConn =>
        cases oe with
        | some e =>
          refine ⟨Inv_handleConnectionError _ e ⟨h1, h2, h3, h4, h5, h6⟩, ?_⟩
          intro ch hch
          exact absurd hch (by simp)
        | none =>
          cases od with
          | some e =>
            refine ⟨⟨h1, h2, h3, h4,
              fun c hc => chanIdLt_mono (h5 c hc) (Nat.le_succ _),
              fun c hc => chanIdLt_mono (h6 c hc) (Nat.le_succ _)⟩, ?_⟩
            intro ch hch
            exact absurd hch (by simp)
          | none =>
            refine ⟨⟨h1, h2, h3, h4,
              fun c hc => chanIdLt_mono (h5 c hc) (Nat.le_succ _),
              fun c hc => chanIdLt_mono (h6 c hc) (Nat.le_succ _)⟩, ?_⟩
            intro ch hch
            injection hch with h
            subst h
            refine ⟨fun hm => absurd (h6 _ hm) (lt_irrefl nid), fun hb => ?_⟩
            exact absurd (h6 _ (h3 _ hb)) (lt_irrefl nid)
  | cons c rest ih =>
    intro s hp hInv
    obtain ⟨cap, pool, bad, conn, nid, dc, pc, cl, em⟩ := s
    simp only at hp
    subst hp
    obtain ⟨h1, h2, h3, h4, h5, h6⟩ := hInv
    have hcnr : c ∉ rest := (List.nodup_cons.mp h1).1
    have hrest : rest.Nodup := (List.nodup_cons.mp h1).2
    simp only [acquireLoop]
    split
    · rename_i hcb
      apply ih _ rfl
      refine ⟨hrest, ?_, ?_, h4, ?_, h6⟩
      · intro x hx hm
        have hxc : x ≠ c := fun hEq => hcnr (hEq ▸ hx)
        exact (List.mem_erase_of_ne hxc).mpr (h2 x (List.mem_cons_of_mem c hx) hm)
      · intro x hx
        exact h3 x (List.mem_of_mem_erase hx)
      · intro x hx
        exact h5 x (List.mem_cons_of_mem c hx)
    · rename_i hcb
      refine ⟨⟨hrest, ?_, h3, h4, ?_, h6⟩, ?_⟩
      · intro x hx hm
        exact h2 x (List.mem_cons_of_mem c hx) hm
      · intro x hx
        exact h5 x (List.mem_cons_of_mem c hx)
      · intro ch hch
        injection hch with h
        subst h
        exact ⟨fun hm => hcb (h2 c (List.mem_cons_self c rest) hm), hcb⟩

theorem Inv_Release (s : RabbitState) (ch : Chan) (hInv : Inv s) (hok : ReleaseOK s ch) :
    Inv (Release s ch) := by
  obtain ⟨h1, h2, h3, h4, h5, h6⟩ := hInv
  obtain ⟨r1, r2, r3⟩ := hok
  unfold Release
  split
  · rename_i hb
    refine ⟨h1, ?_, ?_, h4, h5, h6⟩
    · intro c hcp hcm
      have hcc : c ≠ ch := fun hEq => r1 (hEq ▸ hcp)
      exact (List.mem_erase_of_ne hcc).mpr (h2 c hcp hcm)
    · intro c hc
      exact h3 c (List.mem_of_mem_erase hc)
  · split
    · exact ⟨h1, h2, h3, h4, h5, h6⟩
    · split
      · rename_i hnb hpc hlen
        refine ⟨?_, ?_, h3, h4, ?_, h6⟩
        · rw [List.nodup_append]
          refine ⟨h1, List.nodup_singleton ch, ?_⟩
          intro a ha hac
          rw [List.mem_singleton] at hac
          exact r1 (hac ▸ ha)
        · intro c hcp hcm
          rcases List.mem_append.mp hcp with hc | hc
          · exact h2 c hc hcm
          · rw [List.mem_singleton] at hc
            subst hc
            exact absurd (r2 hcm) hnb
        · intro c hcp
          rcases List.mem_append.mp hcp with hc | hc
          · exact h5 c hc
          · rw [List.mem_singleton] at hc
            subst hc
            exact r3
      · exact ⟨h1, h2, h3, h4, h5, h6⟩

theorem Inv_handleChannelClose (s : RabbitState) (ch : Chan) (hInv : Inv s)
    (hne : ch ≠ none) (hid : chanIdLt ch s.nextId) : Inv (handleChannelClose s ch) := by
  obtain ⟨h1, h2, h3, h4, h5, h6⟩ := hInv
  unfold handleChannelClose
  by_cases hA : ch ∈ s.bad <;> by_cases hB : ch ∈ s.everMarked <;>
      simp only [hA, hB, if_true, if_false, if_pos, if_neg, not_false_iff]
  · exact ⟨h1, h2, h3, h4, h5, h6⟩
  · refine ⟨h1, ?_, ?_, ?_, h5, ?_⟩
    · intro c hcp hcm
      rcases List.mem_append.mp hcm with hc | hc
      · exact h2 c hcp hc
      · rw [List.mem_singleton] at hc
        subst hc
        exact hA
    · intro c hc
      exact List.mem_append_left _ (h3 c hc)
    · intro hx
      rcases List.mem_append.mp hx with hc | hc
      · exact h4 hc
      · rw [List.mem_singleton] at hc
        exact hne hc.symm
    · intro c hc
      rcases List.mem_append.mp hc with hx | hx
      · exact h6 c hx
      · rw [List.mem_singleton] at hx
        subst hx
        exact hid
  · refine ⟨h1, ?_, ?_, h4, h5, h6⟩
    · intro c hcp hcm
      exact List.mem_append_left _ (h2 c hcp hcm)
    · intro c hc
      rcases List.mem_append.mp hc with hx | hx
      · exact h3 c hx
      · rw [List.mem_singleton] at hx
        subst hx
        exact hB
  · refine ⟨h1, ?_, ?_, ?_, h5, ?_⟩
    · intro c hcp hcm
      rcases List.mem_append.mp hcm with hc | hc
      · exact List.mem_append_left _ (h2 c hcp hc)
      · rw [List.mem_singleton] at hc
        subst hc
        exact List.mem_append_right _ (List.mem_singleton_self c)
    · intro c hc
      rcases List.mem_append.mp hc with hx | hx
      · exact List.mem_append_left _ (h3 c hx)
      · rw [List.mem_singleton] at hx
        subst hx
        exact List.mem_append_right _ (List.mem_singleton_self c)
    · intro hx
      rcases List.mem_append.mp hx with hc | hc
      · exact h4 hc
      · rw [List.mem_singleton] at hc
        exact hne hc.symm
    · intro c hc
      rcases List.mem_append.mp hc with hx | hx
      · exact h6 c hx
      · rw [List.mem_singleton] at hx
        subst hx
        exact hid

theorem Inv_warmUpStep (s : RabbitState) (o : AcqOracle) (hInv : Inv s) :
    Inv (warmUpStep s o) := by
  obtain ⟨h1, h2, h3, h4, h5, h6⟩ := hInv
  unfold warmUpStep
  split
  · exact ⟨h1, h2, h3, h4, h5, h6⟩
  · dsimp only
    split
    · exact ⟨h1, h2, h3, h4,
        fun c hc => chanIdLt_mono (h5 c hc) (Nat.le_succ _),
        fun c hc => chanIdLt_mono (h6 c hc) (Nat.le_succ _)⟩
    · split
      · exact ⟨h1, h2, h3, h4,
          fun c hc => chanIdLt_mono (h5 c hc) (Nat.le_succ _),
          fun c hc => chanIdLt_mono (h6 c hc) (Nat.le_succ _)⟩
      · split
        · refine ⟨?_, ?_, h3, h4, ?_,
            fun c hc => chanIdLt_mono (h6 c hc) (Nat.le_succ _)⟩
          · rw [List.nodup_append]
            refine ⟨h1, List.nodup_singleton _, ?_⟩
            intro a ha hac
            rw [List.mem_singleton] at hac
            subst hac
            exact absurd (h5 _ ha) (lt_irrefl s.nextId)
          · intro c hcp hcm
            rcases List.mem_append.mp hcp with hc | hc
            · exact h2 c hc hcm
            · rw [List.mem_singleton] at hc
              subst hc
              exact absurd (h6 _ hcm) (lt_irrefl s.nextId)
          · intro c hcp
            rcases List.mem_append.mp hcp with hc | hc
            · exact chanIdLt_mono (h5 c hc) (Nat.le_succ _)
            · rw [List.mem_singleton] at hc
              subst hc
              exact Nat.lt_succ_self s.nextId
        · exact ⟨h1, h2, h3, h4,
            fun c hc => chanIdLt_mono (h5 c hc) (Nat.le_succ _),
            fun c hc => chanIdLt_mono (h6 c hc) (Nat.le_succ _)⟩

theorem Inv_Stop (s : RabbitState) (hInv : Inv s) : Inv (Stop s).2 := by
  obtain ⟨cap, pool, bad, conn, nid, dc, pc, cl, em⟩ := s
  obtain ⟨h1, h2, h3, h4, h5, h6⟩ := hInv
  unfold Stop
  cases dc with
  | true => exact ⟨h1, h2, h3, h4, h5, h6⟩
  | false =>
    cases conn with
    | noConn =>
      exact ⟨List.nodup_nil, fun c hc => absurd hc (List.not_mem_nil c), h3, h4,
        fun c hc => absurd hc (List.not_mem_nil c), h6⟩
    | openConn =>
      exact ⟨List.nodup_nil, fun c hc => absurd hc (List.not_mem_nil c), h3, h4,
        fun c hc => absurd hc (List.not_mem_nil c), h6⟩
    | closedConn =>
      exact ⟨List.nodup_nil, fun c hc => absurd hc (List.not_mem_nil c), h3, h4,
        fun c hc => absurd hc (List.not_mem_nil c), h6⟩

theorem Inv_reconnectSwap (s : RabbitState) (hInv : Inv s) : Inv (reconnectSwap s) := by
  obtain ⟨h1, h2, h3, h4, h5, h6⟩ := hInv
  exact ⟨List.nodup_nil, fun c hc => absurd hc (List.not_mem_nil c), h3, h4,
    fun c hc => absurd hc (List.not_mem_nil c), h6⟩

/-! ### Claim C4: the BadChannelSet is transient and excluding -/

/-- C4 counterexample: the claim says that once a channel's close
notification has been recorded, that identity is never returned to
service.  `PublishWithRetry`'s deferred release re-releases the first
channel after it was already recycled; starting from a pool holding
channels 0 and 1 (capacity 2), a run whose first publish fails leaves
channel 0 in the pool twice.  When its close notification then fires,
the next `Acquire` pops the first copy, consumes the bad-set entry and
closes the channel, but then pops the second copy — now absent from the
set — and returns the marked, closed channel 0 to service. -/
theorem badchannel_reacquired_after_mark_cex :
    some 0 ∈ (handleChannelClose (PublishWithRetry
        { NewRabbitManager 2 with conn := .openConn, pool := [some 0, some 1], nextId := 2 }
        ⟨none, none⟩ (fun k => if k = 1 then some ⟨false, "publish failed"⟩ else none)
        (fun _ => ⟨none, none⟩) (fun _ => none)).final (some 0)).everMarked ∧
    (Acquire (handleChannelClose (PublishWithRetry
        { NewRabbitManager 2 with conn := .openConn, pool := [some 0, some 1], nextId := 2 }
        ⟨none, none⟩ (fun k => if k = 1 then some ⟨false, "publish failed"⟩ else none)
        (fun _ => ⟨none, none⟩) (fun _ => none)).final (some 0)) ⟨none, none⟩).1 =
      .ok (some 0) := by
  decide

/-- C4 amended: membership in the `BadChannelSet` is transient and
excluding in the stated sense — the first `Acquire` or `Release` that
touches a bad channel removes it from the set and closes it, and no
`Acquire` ever returns a channel that is in the set at the time of the
check — and a recorded close notification permanently bars an identity
from service PROVIDED every release obeys the exclusive-lease
discipline (`ReleaseOK`: no double release, so the pool never holds a
duplicate); the structural invariant `Inv` (no duplicate pool entries,
marked pooled channels still carry their bad entry, fresh identities
are genuinely fresh) is preserved by every well-behaved operation, and
under it an acquired channel was never marked.  Without the proviso the
guarantee fails, as the counterexample's double release shows. -/
theorem badChannelSet_transient_amended :
    (∀ (s : RabbitState) (op : Op), Inv s → stepOK s op → Inv (step s op)) ∧
    (∀ (s : RabbitState) (o : AcqOracle) (ch : Chan), Inv s →
      (Acquire s o).1 = .ok ch → ch ∉ s.everMarked ∧ ch ∉ (Acquire s o).2.bad) ∧
    (∀ (s : RabbitState) (ch : Chan), ch ∈ s.bad →
      (Release s ch).pool = s.pool ∧ (Release s ch).bad = s.bad.erase ch ∧
      ch ∈ (Release s ch).closed) := by
  refine ⟨?_, ?_, ?_⟩
  · intro s op hInv hok
    cases op with
    | acquire o => exact (acquireLoop_inv o s.pool s rfl hInv).1
    | release ch => exact Inv_Release s ch hInv hok
    | chanClose ch => exact Inv_handleChannelClose s ch hInv hok.1 hok.2
    | warm o => exact Inv_warmUpStep s o hInv
    | stop => exact Inv_Stop s hInv
    | reconnect => exact Inv_reconnectSwap s hInv
  · intro s o ch hInv hok
    exact (acquireLoop_inv o s.pool s rfl hInv).2 ch hok
  · intro s ch hb
    unfold Release
    rw [if_pos hb]
    exact ⟨rfl, rfl, by simp [closeChan]⟩

/-- Witness for C4's amended claim: a healthy manager state holding a
single pooled channel satisfies the invariant, and `Acquire` returns a
channel that was never marked and is not in the bad set. -/
theorem badChannelSet_transient_amended_witness :
    some 0 ∉ ({ NewRabbitManager 2 with conn := .openConn, pool := [some 0], nextId := 1 } :
      RabbitState).everMarked ∧
    some 0 ∉ (Acquire { NewRabbitManager 2 with conn := .openConn, pool := [some 0], nextId := 1 }
      ⟨none, none⟩).2.bad :=
  badChannelSet_transient_amended.2.1
    { NewRabbitManager 2 with conn := .openConn, pool := [some 0], nextId := 1 }
    ⟨none, none⟩ (some 0) (by decide) (by decide)

/-! ### Claims C5, C6: reconnect backoff -/

/-- C5: the reconnect loop's base delay sequence (jitter ignored) starts
at the 1-second floor, is non-decreasing across consecutive dial
failures, doubles per failure while below the `BackoffMax` ceiling, and
a single successful dial resets the next base delay to the floor; three
failures then a success then a failure yield base delays
1 s, 2 s, 4 s, 1 s. -/
theorem reconnect_backoff_monotone_reset :
    (∀ rest : List Bool, (reconnectLoopBases (false :: rest)).head? = some 1000) ∧
    (∀ (b n : Nat), List.Chain' (· ≤ ·) (reconnectBases b (List.replicate n false))) ∧
    (∀ (b : Nat) (rest : List Bool),
      reconnectBases b (false :: rest) = b :: reconnectBases (nextBackoff b) rest) ∧
    (∀ b : Nat, b < BackoffMax → nextBackoff b = 2 * b) ∧
    (∀ (b : Nat) (rest : List Bool),
      reconnectBases b (true :: rest) = reconnectBases 1000 rest) ∧
    reconnectLoopBases [false, false, false, true, false] = [1000, 2000, 4000, 1000] := by
  refine ⟨fun rest => rfl, ?_, fun b rest => rfl, ?_, fun b rest => rfl, by decide⟩
  · intro b n
    induction n generalizing b with
    | zero => simp [reconnectBases]
    | succ k ih =>
      rw [List.replicate_succ, reconnectBases]
      refine List.chain'_cons'.mpr ⟨?_, ih (nextBackoff b)⟩
      intro h hh
      cases k with
      | zero => simp [reconnectBases] at hh
      | succ m =>
        rw [List.replicate_succ, reconnectBases] at hh
        simp only [List.head?_cons, Option.mem_def, Option.some.injEq] at hh
        exact hh ▸ le_nextBackoff b
  · intro b hb
    unfold nextBackoff
    rw [if_pos hb, Nat.mul_comm]

/-- Witness for C5 at concrete inputs. -/
theorem reconnect_backoff_monotone_reset_witness :
    nextBackoff 1000 = 2 * 1000 ∧
    reconnectLoopBases [false, false, false, true, false] = [1000, 2000, 4000, 1000] :=
  ⟨reconnect_backoff_monotone_reset.2.2.2.1 1000 (by decide),
   reconnect_backoff_monotone_reset.2.2.2.2.2⟩

/-- C6 counterexample: the claim says the base backoff never exceeds the
30 s ceiling `BackoffMax`, but the code doubles the backoff whenever it
is still below `BackoffMax` (`rabbit.go` lines 214-216), so the sixth
consecutive dial failure sleeps a base delay of 32 s, which exceeds the
ceiling. -/
theorem backoff_exceeds_ceiling_cex :
    32000 ∈ reconnectLoopBases (List.replicate 6 false) ∧ BackoffMax < 32000 := by
  decide

/-- C6 amended: the delay slept between consecutive failed dials equals
backoff plus jitter, the jitter is within ±500 ms (it lies in
[-500 ms, 499 ms]), and the base backoff never exceeds 32 s — the first
doubling result at or above `BackoffMax`, at which point doubling
stops — rather than the 30 s `BackoffMax` itself. -/
theorem backoff_bound_amended :
    (∀ (outs : List Bool), ∀ d ∈ reconnectLoopBases outs, d ≤ 32000) ∧
    (∀ j : Nat, j < 1000 → -500 ≤ jitterOf j ∧ jitterOf j ≤ 500) ∧
    (∀ (base j : Nat), sleepDuration base j = base + jitterOf j) := by
  refine ⟨?_, ?_, fun base j => rfl⟩
  · intro outs d hd
    exact reachable_le (reconnectBases_mem_reachable outs 1000 (by decide) d hd)
  · intro j hj
    unfold jitterOf
    omega

/-- Witness for C6's amended claim at concrete inputs. -/
theorem backoff_bound_amended_witness :
    32000 ≤ 32000 ∧ (-500 ≤ jitterOf 0 ∧ jitterOf 0 ≤ 500) :=
  ⟨backoff_bound_amended.1 (List.replicate 6 false) 32000 (by decide),
   backoff_bound_amended.2.1 0 (by decide)⟩

/-! ### Claim C7: Stop -/

/-- C7 counterexample: the claim says calling `Stop()` after `Stop()`
does not panic, but `Stop` unconditionally runs `close(r.done)`
(`rabbit.go` line 70) and closing an already-closed Go channel panics
(and `Stop` installs no `PanicCatcher`), so the second `Stop` on a fresh
manager panics. -/
theorem double_stop_panics_cex :
    (Stop (Stop (NewRabbitManager 2)).2).1 = .panicked := by
  decide

/-- C7 amended: the FIRST `Stop()` — in any prior state, including
before `Start()` and with or without a live connection — does not panic,
closes the connection when one exists, and drains the pool closing every
pooled channel; but a second `Stop()` panics on `close(r.done)`. -/
theorem stop_first_call_amended (s : RabbitState) (h : s.doneClosed = false) :
    (Stop s).1 = .ok ∧
    (Stop s).2.pool = [] ∧
    (∀ ch ∈ s.pool, ch ∈ (Stop s).2.closed) ∧
    (s.conn ≠ .noConn → (Stop s).2.conn = .closedConn) ∧
    (s.conn = .noConn → (Stop s).2.conn = .noConn) ∧
    (Stop (Stop s).2).1 = .panicked := by
  obtain ⟨cap, pool, bad, conn, nid, dc, pc, cl, em⟩ := s
  simp only at h
  subst h
  cases conn with
  | noConn =>
    refine ⟨rfl, rfl, ?_, ?_, fun _ => rfl, rfl⟩
    · intro ch hch
      simp [Stop, hch]
    · intro hne
      exact absurd rfl hne
  | openConn =>
    refine ⟨rfl, rfl, ?_, fun _ => rfl, ?_, rfl⟩
    · intro ch hch
      simp [Stop, hch]
    · intro hc
      simp at hc
  | closedConn =>
    refine ⟨rfl, rfl, ?_, fun _ => rfl, ?_, rfl⟩
    · intro ch hch
      simp [Stop, hch]
    · intro hc
      simp at hc

/-- Witness for C7's amended claim: a manager holding one pooled channel
and a live connection. -/
theorem stop_first_call_amended_witness :
    (Stop { NewRabbitManager 2 with conn := .openConn, pool := [some 0], nextId := 1 }).1 = .ok ∧
    some 0 ∈ (Stop { NewRabbitManager 2 with conn := .openConn, pool := [some 0], nextId := 1 }).2.closed ∧
    (Stop (Stop { NewRabbitManager 2 with conn := .openConn, pool := [some 0], nextId := 1 }).2).1 = .panicked :=
  ⟨(stop_first_call_amended _ rfl).1,
   (stop_first_call_amended { NewRabbitManager 2 with conn := .openConn, pool := [some 0], nextId := 1 } rfl).2.2.1
      (some 0) (by decide),
   (stop_first_call_amended _ rfl).2.2.2.2.2⟩

/-! ### Claim C8: queue-declare failure -/

/-- C8: when the durable queue declaration on a freshly opened channel
fails — in `Acquire`'s empty-pool path or during warm-up — the fresh
channel is closed immediately, the pool is left untouched (the channel
is neither handed to the caller nor pooled), and in the `Acquire` path
the declare error itself is the returned error. -/
theorem queue_declare_failure_closes :
    (∀ (s : RabbitState) (e : GoError) (o : AcqOracle),
      s.pool = [] → s.conn = .openConn → s.poolClosed = false →
      o.openErr = none → o.declErr = some e →
      (Acquire s o).1 = .fail e ∧
      some s.nextId ∈ (Acquire s o).2.closed ∧
      (Acquire s o).2.pool = s.pool) ∧
    (∀ (s : RabbitState) (e : GoError) (o : AcqOracle),
      o.openErr = none → o.declErr = some e →
      (warmUpStep s o).pool = s.pool ∧ some s.nextId ∈ (warmUpStep s o).closed) := by
  constructor
  · intro s e o hpool hconn hpc hopen hdecl
    unfold Acquire
    rw [hpool]
    simp only [acquireLoop, acquireEmptyPool, hpc, hconn, hopen, hdecl]
    simp [closeChan, hpool]
  · intro s e o hopen hdecl
    unfold warmUpStep
    rw [hopen, hdecl]
    simp [closeChan]

/-- Witness for C8 at a concrete manager state and declare error. -/
theorem queue_declare_failure_closes_witness :
    (Acquire { NewRabbitManager 3 with conn := .openConn } ⟨none, some ⟨false, "declare failed"⟩⟩).1 =
      .fail ⟨false, "declare failed"⟩ ∧
    some 0 ∈ (Acquire { NewRabbitManager 3 with conn := .openConn } ⟨none, some ⟨false, "declare failed"⟩⟩).2.closed :=
  ⟨(queue_declare_failure_closes.1 { NewRabbitManager 3 with conn := .openConn }
      ⟨false, "declare failed"⟩ ⟨none, some ⟨false, "declare failed"⟩⟩ rfl rfl rfl rfl rfl).1,
   (queue_declare_failure_closes.1 { NewRabbitManager 3 with conn := .openConn }
      ⟨false, "declare failed"⟩ ⟨none, some ⟨false, "declare failed"⟩⟩ rfl rfl rfl rfl rfl).2.1⟩

/-! ### Claim C9: handleConnectionError -/

/-- C9: an error matches the dead-connection signature exactly when it
equals `amqp.ErrClosed` or its text contains
`constants.RabbitMQConnectionError`; on a match,
`handleConnectionError` closes the current connection (when one
exists) and is idempotent — applying it to an already-closed connection
changes nothing further and cannot panic (it is a total function); on a
non-match the state is untouched; and `Acquire`'s channel-open failure
surfaces the original error to the caller in all cases, alongside the
`handleConnectionError` state change. -/
theorem handleConnectionError_spec :
    (∀ e : GoError, errMatchesConnClosed e =
      (e.isAmqpErrClosed || strContains e.msg RabbitMQConnectionError)) ∧
    (∀ (s : RabbitState) (e : GoError), errMatchesConnClosed e = true →
      s.conn ≠ .noConn → (handleConnectionError s e).conn = .closedConn) ∧
    (∀ (s : RabbitState) (e : GoError), errMatchesConnClosed e = false →
      handleConnectionError s e = s) ∧
    (∀ (s : RabbitState) (e : GoError),
      handleConnectionError (handleConnectionError s e) e = handleConnectionError s e) ∧
    (∀ (s : RabbitState) (e : GoError) (d : Option GoError),
      s.pool = [] → s.conn = .openConn → s.poolClosed = false →
      Acquire s ⟨some e, d⟩ = (.fail e, handleConnectionError s e)) := by
    refine ⟨fun e => rfl, ?_, ?_, ?_, ?_⟩
    · intro s e hm hne
      unfold handleConnectionError
      rw [if_pos hm]
      cases hc : s.conn
      · exact absurd hc hne
      · simp [hc]
      · simp [hc]
    · intro s e hm
      unfold handleConnectionError
      rw [if_neg (by simp [hm])]
    · intro s e
      unfold handleConnectionError
      by_cases hm : errMatchesConnClosed e = true
      · rw [if_pos hm]
        cases hc : s.conn <;> simp [hc, if_pos hm]
      · rw [if_neg hm, if_neg hm]
    · intro s e d hpool hconn hpc
      unfold Acquire
      rw [hpool]
      simp only [acquireLoop, acquireEmptyPool, hpc, hconn]
      simp

/-- Witness for C9: a concrete error whose text contains the sentinel
`"connection is not open"` forces the open connection closed, and the
`Acquire` caller receives that same error back. -/
theorem handleConnectionError_spec_witness :
    (handleConnectionError { NewRabbitManager 2 with conn := .openConn }
      ⟨false, "Exception (504) Reason: connection is not open"⟩).conn = .closedConn ∧
    Acquire { NewRabbitManager 2 with conn := .openConn }
        ⟨some ⟨false, "Exception (504) Reason: connection is not open"⟩, none⟩ =
      (.fail ⟨false, "Exception (504) Reason: connection is not open"⟩,
        handleConnectionError { NewRabbitManager 2 with conn := .openConn }
          ⟨false, "Exception (504) Reason: connection is not open"⟩) :=
  ⟨handleConnectionError_spec.2.1 { NewRabbitManager 2 with conn := .openConn }
      ⟨false, "Exception (504) Reason: connection is not open"⟩ (by decide) (by decide),
   handleConnectionError_spec.2.2.2.2 { NewRabbitManager 2 with conn := .openConn }
      ⟨false, "Exception (504) Reason: connection is not open"⟩ none rfl rfl rfl⟩

/-! ### Claim C1: publish retry bound -/

/-- C1: a `PublishWithRetry` call performs at most `maxPublishAttempts`
(2) publish attempts — whether or not the initial `Acquire` succeeds —
and whenever both publish attempts were performed and the second failed
(which entails the first failed too, else the call would have returned
after one attempt), the call returns the
`"failed to publish after %d attempts"` error carrying exactly
`maxPublishAttempts` as the attempt count. -/
theorem publishWithRetry_attempt_bound (s : RabbitState) (i : AcqOracle)
    (p : Nat → Option GoError) (r : Nat → AcqOracle) (m : Nat → Option Chan) :
    (PublishWithRetry s i p r m).attempts ≤ maxPublishAttempts ∧
    ((PublishWithRetry s i p r m).attempts = maxPublishAttempts →
      ∀ e2, p 2 = some e2 →
        (PublishWithRetry s i p r m).outcome = .failedAfter maxPublishAttempts e2) := by
  unfold PublishWithRetry
  rcases hA : Acquire s i with ⟨res, s1⟩
  cases res with
  | blocked => exact ⟨by simp, by simp [maxPublishAttempts]⟩
  | fail e => exact ⟨by simp, by simp [maxPublishAttempts]⟩
  | ok ch =>
    dsimp only
    constructor
    · exact publishLoop_attempts_le p r m _ s1 ch 1
    · intro hat e2 hp2
      rw [show maxPublishAttempts = 1 + 1 from rfl, publishLoop_succ] at hat ⊢
      cases hp1 : p 1 with
      | none =>
        rw [hp1] at hat
        simp at hat
      | some e1 =>
        rw [hp1] at hat
        dsimp only at hat ⊢
        rw [if_neg (by decide)] at hat ⊢
        rcases hacq : acquireLoop (r 1) (Release (markPoint s1 (m 1)) ch)
            (Release (markPoint s1 (m 1)) ch).pool with ⟨res2, s2⟩
        cases res2 with
        | ok ch2 =>
          dsimp only
          rw [show publishLoop p r m 1 s2 ch2 (1 + 1) =
                publishLoop p r m (0 + 1) s2 ch2 maxPublishAttempts from rfl,
              publishLoop_succ]
          rw [show p maxPublishAttempts = some e2 from hp2]
          dsimp only
          rw [if_pos rfl]
          rfl
        | fail e3 =>
          rw [hacq] at hat
          simp at hat
        | blocked =>
          rw [hacq] at hat
          simp at hat

/-- Witness for C1: a run in which both publish attempts fail returns
the two-attempt error. -/
theorem publishWithRetry_attempt_bound_witness :
    (PublishWithRetry { NewRabbitManager 1 with conn := .openConn } ⟨none, none⟩
        (fun _ => some ⟨false, "publish timed out"⟩) (fun _ => ⟨none, none⟩)
        (fun _ => none)).attempts ≤ maxPublishAttempts ∧
    (PublishWithRetry { NewRabbitManager 1 with conn := .openConn } ⟨none, none⟩
        (fun _ => some ⟨false, "publish timed out"⟩) (fun _ => ⟨none, none⟩)
        (fun _ => none)).outcome = .failedAfter maxPublishAttempts ⟨false, "publish timed out"⟩ :=
  ⟨(publishWithRetry_attempt_bound { NewRabbitManager 1 with conn := .openConn } ⟨none, none⟩
      (fun _ => some ⟨false, "publish timed out"⟩) (fun _ => ⟨none, none⟩) (fun _ => none)).1,
   (publishWithRetry_attempt_bound { NewRabbitManager 1 with conn := .openConn } ⟨none, none⟩
      (fun _ => some ⟨false, "publish timed out"⟩) (fun _ => ⟨none, none⟩) (fun _ => none)).2
      (by decide) ⟨false, "publish timed out"⟩ rfl⟩

/-! ### Claim C2: channel recycling inside PublishWithRetry -/

/-- C2 counterexample: the claim says that when the first publish
attempt fails, the second attempt uses a different channel identity than
the first.  In the code, `Release` appends the failed channel to the
pool (`rabbit.go` line 170) and the retry `Acquire` pops from the same
pool (line 107), so with an empty pool the retry gets the very channel
that just failed: in this concrete run both attempts use channel
identity 5. -/
theorem publishWithRetry_recycle_same_channel_cex :
    (PublishWithRetry { NewRabbitManager 1 with conn := .openConn, nextId := 5 } ⟨none, none⟩
        (fun k => if k = 1 then some ⟨false, "publish failed"⟩ else none)
        (fun _ => ⟨none, none⟩) (fun _ => none)).attempts = 2 ∧
    (PublishWithRetry { NewRabbitManager 1 with conn := .openConn, nextId := 5 } ⟨none, none⟩
        (fun k => if k = 1 then some ⟨false, "publish failed"⟩ else none)
        (fun _ => ⟨none, none⟩) (fun _ => none)).chans = [some 5, some 5] := by
  decide

/-- C2 amended: when the first attempt's publish fails, the failed
channel is released exactly once before the next acquire (it is never
retried directly), giving the release trace
`[failed channel, deferred release of the same first channel]`; but the
second attempt need not use a different channel identity — whenever the
pool is empty at the release (as here) and the channel is not marked
bad, the retry `Acquire` pops back the very channel that failed, so both
attempts use the same identity. -/
theorem publishWithRetry_recycle_amended (cap n : Nat) (dc : Bool) (cl em : List Chan)
    (e : GoError) (r : Nat → AcqOracle) :
    PublishWithRetry
        { capacity := cap + 1, pool := [], bad := [], conn := .openConn, nextId := n,
          doneClosed := dc, poolClosed := false, closed := cl, everMarked := em }
        ⟨none, none⟩ (fun k => if k = 1 then some e else none) r (fun _ => none) =
      { outcome := .success, attempts := 2, chans := [some n, some n],
        releases := [some n, some n],
        final := { capacity := cap + 1, pool := [some n], bad := [], conn := .openConn,
                   nextId := n + 1, doneClosed := dc, poolClosed := false, closed := cl,
                   everMarked := em } } := by
  simp [PublishWithRetry, Acquire, acquireLoop, acquireEmptyPool, publishLoop, Release,
    markPoint, closeChan, maxPublishAttempts]

/-! ### Claim C10: the deferred Release after a failed re-Acquire -/

theorem getLast?_append_singleton {α : Type} (l : List α) (a : α) :
    (l ++ [a]).getLast? = some a := by
  rw [List.getLast?_append_cons]
  rfl

/-- C10 counterexample: the claim says that after a failed publish whose
re-`Acquire` errors, the deferred `Release` pushes a nil channel into
the pool and a later `Acquire` can return nil with a nil error.  In Go
the arguments of `defer r.Release(ch)` are evaluated when the defer
statement executes, so the deferred call receives the first acquired
channel (identity 0), never the nil the variable later holds: in this
run the re-`Acquire` fails, capacity allows a push, yet no release
argument is nil, the pool ends holding channel 0 (not nil), and the next
`Acquire` returns channel 0, not a nil channel. -/
theorem publishWithRetry_nil_release_cex :
    (PublishWithRetry { NewRabbitManager 1 with conn := .openConn } ⟨none, none⟩
        (fun k => if k = 1 then some ⟨false, "publish failed"⟩ else none)
        (fun _ => ⟨some ⟨true, "use of closed network connection"⟩, none⟩)
        (fun k => if k = 1 then some (some 0) else none)).outcome =
      .noChannelOnRetry ⟨true, "use of closed network connection"⟩ ∧
    none ∉ (PublishWithRetry { NewRabbitManager 1 with conn := .openConn } ⟨none, none⟩
        (fun k => if k = 1 then some ⟨false, "publish failed"⟩ else none)
        (fun _ => ⟨some ⟨true, "use of closed network connection"⟩, none⟩)
        (fun k => if k = 1 then some (some 0) else none)).releases ∧
    (PublishWithRetry { NewRabbitManager 1 with conn := .openConn } ⟨none, none⟩
        (fun k => if k = 1 then some ⟨false, "publish failed"⟩ else none)
        (fun _ => ⟨some ⟨true, "use of closed network connection"⟩, none⟩)
        (fun k => if k = 1 then some (some 0) else none)).final.pool = [some 0] ∧
    (Acquire (PublishWithRetry { NewRabbitManager 1 with conn := .openConn } ⟨none, none⟩
        (fun k => if k = 1 then some ⟨false, "publish failed"⟩ else none)
        (fun _ => ⟨some ⟨true, "use of closed network connection"⟩, none⟩)
        (fun k => if k = 1 then some (some 0) else none)).final ⟨none, none⟩).1 =
      .ok (some 0) := by
  decide

/-- C10 amended: Go evaluates deferred call arguments at the `defer`
statement, so whenever the initial `Acquire` succeeds with channel `c`,
the deferred `Release` — the last release of the call — always receives
`c` itself, never the nil that the variable holds after a failed
re-`Acquire`.  In the scenario where the first publish fails, the
channel's watcher marks it bad, and the re-`Acquire` then fails, the
failed channel is released twice (`[c, c]`): the pool ends up holding
the already-closed first channel rather than nil, and the subsequent
`Acquire` hands out that stale channel, not a nil channel with a nil
error. -/
theorem publishWithRetry_deferred_release_amended :
    (∀ (s : RabbitState) (i : AcqOracle) (p : Nat → Option GoError) (r : Nat → AcqOracle)
       (m : Nat → Option Chan) (c : Chan),
      (Acquire s i).1 = .ok c →
      (PublishWithRetry s i p r m).releases.getLast? = some c) ∧
    (∀ (cap : Nat) (dc : Bool) (cl : List Chan) (e1 : GoError) (msg2 : String),
      PublishWithRetry
          { capacity := cap + 1, pool := [], bad := [], conn := .openConn, nextId := 0,
            doneClosed := dc, poolClosed := false, closed := cl, everMarked := [] }
          ⟨none, none⟩ (fun k => if k = 1 then some e1 else none)
          (fun _ => ⟨some ⟨true, msg2⟩, none⟩)
          (fun k => if k = 1 then some (some 0) else none) =
        { outcome := .noChannelOnRetry ⟨true, msg2⟩, attempts := 1, chans := [some 0],
          releases := [some 0, some 0],
          final := { capacity := cap + 1, pool := [some 0], bad := [],
                     conn := .closedConn, nextId := 1, doneClosed := dc,
                     poolClosed := false, closed := cl ++ [some 0],
                     everMarked := [some 0] } }) := by
  constructor
  · intro s i p r m c h
    unfold PublishWithRetry
    rcases hA : Acquire s i with ⟨res, s1⟩
    rw [hA] at h
    dsimp only at h
    subst h
    dsimp only
    exact getLast?_append_singleton _ c
  · intro cap dc cl e1 msg2
    simp [PublishWithRetry, Acquire, acquireLoop, acquireEmptyPool, publishLoop, Release,
      markPoint, handleChannelClose, closeChan, handleConnectionError, errMatchesConnClosed,
      maxPublishAttempts]

/-- Witness for C10's amended claim: the deferred-release fact applied
at a concrete run whose initial `Acquire` pops pooled channel 7. -/
theorem publishWithRetry_deferred_release_amended_witness :
    (PublishWithRetry { NewRabbitManager 2 with conn := .openConn, pool := [some 7], nextId := 8 }
        ⟨none, none⟩ (fun _ => none) (fun _ => ⟨none, none⟩) (fun _ => none)).releases.getLast? =
      some (some 7) :=
  publishWithRetry_deferred_release_amended.1
    { NewRabbitManager 2 with conn := .openConn, pool := [some 7], nextId := 8 }
    ⟨none, none⟩ (fun _ => none) (fun _ => ⟨none, none⟩) (fun _ => none) (some 7) (by decide)

end Channelog
